import Mathlib

/-!
Verification of the airscraper lightning-strike monitor.

The development shallowly embeds the parts of the Go program that the
checked properties are about:

* the LZW decoder (`LZWDecoder.Decode` in the display/lzw file, duplicated
  as `WSClient.decodeLZW` in the monolithic `main.go`), modelled over the
  symbol (rune) sequence the Go code obtains from the input bytes;
* the location-label builder `FormatLocation`;
* the WebSocket client's `Close`, `Connect`, `ReadMessages` and the
  read-result handling of `Run`, with the external transport modelled
  explicitly;
* the geocoding rate-limit wrapper `ReverseGeocodeWithRateLimit` and the
  two `processMessage` variants, with the slept duration made explicit.

Go strings are byte sequences; they are modelled as `List Nat` of byte
values.  Go's `string(rune(c))` conversion produces the UTF-8 encoding of
the code point `c`, which is two bytes for `128 ≤ c < 256`; this is
captured by `utf8Encode`.
-/

set_option maxRecDepth 8192

namespace Airscraper

/-- Go's `string(r)` conversion for an integer code point `r`: the UTF-8
encoding of `r`, as a list of byte values.  The program only applies it to
values below 256 (one byte for `c < 128`, two bytes for `128 ≤ c < 256`),
but the definition follows the full UTF-8 scheme. -/
def utf8Encode (c : Nat) : List Nat :=
  if c < 128 then [c]
  else if c < 2048 then [192 + c / 64, 128 + c % 64]
  else if c < 65536 then [224 + c / 4096, 128 + (c / 64) % 64, 128 + c % 64]
  else [240 + c / 262144, 128 + (c / 4096) % 64, 128 + (c / 64) % 64, 128 + c % 64]

/-- State of the decoding loop of `LZWDecoder.Decode`: the dictionary
(Go `map[int]string`, modelled as an association list whose keys are
exactly the codes inserted so far), the next free code, the output bytes
accumulated in `result`, and the `prev` string. -/
structure DecState where
  dict : List (Nat × List Nat)
  code : Nat
  result : List Nat
  prev : List Nat
deriving DecidableEq, Repr

/-- Lookup in the dictionary association list, mirroring Go's
`val, exists := dict[currCode]`.  Keys are inserted at distinct codes, so
the first match is the only one. -/
def dictLookup (d : List (Nat × List Nat)) (c : Nat) : Option (List Nat) :=
  match d with
  | [] => none
  | p :: rest => if p.1 = c then some p.2 else dictLookup rest c

/-- The seeded dictionary: `dict[i] = string(rune(i))` for `i` in `0..255`. -/
def seedDict : List (Nat × List Nat) :=
  (List.range 256).map (fun i => (i, utf8Encode i))

/-- The state after the loop preamble of `Decode` on first symbol `d0`:
`result` holds `byte(data[0])` (the rune truncated to its low 8 bits),
`prev` is `string(data[0])`, and `code` starts at 256. -/
def initState (d0 : Nat) : DecState :=
  { dict := seedDict, code := 256, result := [d0 % 256], prev := utf8Encode d0 }

/-- One iteration of the decoding loop of `LZWDecoder.Decode` for the
current symbol `currCode`: resolve `entry` (literal code below 256,
dictionary hit, or the self-reference fallback, which fails on an empty
`prev`), append `entry` to the output, register `prev + entry[0]` at the
next free code when `entry` is non-empty, and set `prev := entry`. -/
def decodeStep (st : DecState) (currCode : Nat) : Except String DecState :=
  let entryE : Except String (List Nat) :=
    if currCode < 256 then Except.ok (utf8Encode currCode)
    else
      match dictLookup st.dict currCode with
      | some val => Except.ok val
      | none =>
        if st.prev.length = 0 then Except.error "invalid LZW data: empty previous string"
        else Except.ok (st.prev ++ utf8Encode (st.prev.headD 0))
  match entryE with
  | Except.error e => Except.error e
  | Except.ok entry =>
    if entry.length > 0 then
      Except.ok { dict := st.dict ++ [(st.code, st.prev ++ utf8Encode (entry.headD 0))],
                  code := st.code + 1,
                  result := st.result ++ entry,
                  prev := entry }
    else
      Except.ok { dict := st.dict, code := st.code, result := st.result ++ entry, prev := entry }

/-- The decoding loop over the remaining symbols, propagating the error of
any iteration as `Decode` does. -/
def decodeRun : DecState → List Nat → Except String DecState
  | st, [] => Except.ok st
  | st, c :: rest =>
    match decodeStep st c with
    | Except.error e => Except.error e
    | Except.ok st' => decodeRun st' rest

/-- `LZWDecoder.Decode`, over the symbol (rune) sequence the Go code
obtains from the input bytes: an empty input yields an empty payload,
otherwise the first symbol is emitted directly and the loop processes the
rest. -/
def Decode (data : List Nat) : Except String (List Nat) :=
  match data with
  | [] => Except.ok []
  | d0 :: rest => (decodeRun (initState d0) rest).map (fun st => st.result)

/-- The `address` object of a Nominatim reverse-geocoding response
(`types.go` / `main.go`).  Go's zero value for a string is `""`, the
default here. -/
structure NominatimAddress where
  Road : String := ""
  Village : String := ""
  Town : String := ""
  City : String := ""
  County : String := ""
  State : String := ""
  Country : String := ""
  CountryCode : String := ""
  Postcode : String := ""
  Suburb : String := ""
  Municipality : String := ""
  Province : String := ""
  Region : String := ""
deriving DecidableEq

/-- A Nominatim reverse-geocoding response (`types.go`). -/
structure NominatimResponse where
  PlaceID : Int := 0
  Licence : String := ""
  OsmType : String := ""
  OsmID : Int := 0
  Lat : String := ""
  Lon : String := ""
  DisplayName : String := ""
  Address : NominatimAddress := {}
deriving DecidableEq

/-- `if location.Address.Road != "" { parts = append(parts, ...) }` of
`FormatLocation`. -/
def addRoad (parts : List String) (a : NominatimAddress) : List String :=
  if a.Road ≠ "" then parts ++ [a.Road] else parts

/-- The village/town/city/suburb `if`/`else if` chain of `FormatLocation`. -/
def addSettlement (parts : List String) (a : NominatimAddress) : List String :=
  if a.Village ≠ "" then parts ++ [a.Village]
  else if a.Town ≠ "" then parts ++ [a.Town]
  else if a.City ≠ "" then parts ++ [a.City]
  else if a.Suburb ≠ "" then parts ++ [a.Suburb]
  else parts

/-- `if location.Address.County != "" { parts = append(parts, ...) }` of
`FormatLocation`. -/
def addCounty (parts : List String) (a : NominatimAddress) : List String :=
  if a.County ≠ "" then parts ++ [a.County] else parts

/-- The state/province/region `if`/`else if` chain of `FormatLocation`. -/
def addAdmin (parts : List String) (a : NominatimAddress) : List String :=
  if a.State ≠ "" then parts ++ [a.State]
  else if a.Province ≠ "" then parts ++ [a.Province]
  else if a.Region ≠ "" then parts ++ [a.Region]
  else parts

/-- `if location.Address.Country != "" { parts = append(parts, ...) }` of
`FormatLocation`. -/
def addCountry (parts : List String) (a : NominatimAddress) : List String :=
  if a.Country ≠ "" then parts ++ [a.Country] else parts

/-- The `parts` slice built by `FormatLocation` (display.go, duplicated as
`WSClient.formatLocation` in main.go): the five append blocks run in
order on an initially empty slice. -/
def formatParts (a : NominatimAddress) : List String :=
  addCountry (addAdmin (addCounty (addSettlement (addRoad [] a) a) a) a) a

/-- `FormatLocation` (display.go): `"Location unknown"` for a `nil`
response or an empty `parts` slice, otherwise the parts joined with
`", "`. -/
def FormatLocation (location : Option NominatimResponse) : String :=
  match location with
  | none => "Location unknown"
  | some loc =>
    let parts := formatParts loc.Address
    if parts.length = 0 then "Location unknown"
    else String.intercalate ", " parts

/-- `[s]` when `s` is non-empty, `[]` otherwise: one optional label part. -/
def optPart (s : String) : List String :=
  if s = "" then [] else [s]

/-- The first non-empty string of a list, or `""` when there is none. -/
def firstNonEmpty : List String → String
  | [] => ""
  | s :: rest => if s = "" then firstNonEmpty rest else s

/-- The selection rule exactly as the claim states it: one part per group,
where the admin-level group picks the first non-empty of county, state,
province, region — so county and state never both appear. -/
def formatLocationClaim (location : Option NominatimResponse) : String :=
  match location with
  | none => "Location unknown"
  | some loc =>
    let a := loc.Address
    let parts := optPart a.Road
      ++ optPart (firstNonEmpty [a.Village, a.Town, a.City, a.Suburb])
      ++ optPart (firstNonEmpty [a.County, a.State, a.Province, a.Region])
      ++ optPart a.Country
    if parts = [] then "Location unknown"
    else String.intercalate ", " parts

/-- The amended selection rule: road when present; the first non-empty of
village/town/city/suburb; county when present; the first non-empty of
state/province/region; country when present — in that order, joined with
`", "`; `"Location unknown"` for a `nil` response or when nothing was
selected. -/
def formatLocationRef (location : Option NominatimResponse) : String :=
  match location with
  | none => "Location unknown"
  | some loc =>
    let a := loc.Address
    let parts := optPart a.Road
      ++ optPart (firstNonEmpty [a.Village, a.Town, a.City, a.Suburb])
      ++ optPart a.County
      ++ optPart (firstNonEmpty [a.State, a.Province, a.Region])
      ++ optPart a.Country
    if parts = [] then "Location unknown"
    else String.intercalate ", " parts

/-- A response whose address carries both a county and a state, as in the
README's sample output. -/
def respCountyState : NominatimResponse :=
  { Address := { County := "Granville County", State := "North Carolina" } }

/-- The external transport handle (a gorilla websocket connection over a
`net.Conn`).  Only the property the client's `Close` path depends on is
modelled: whether the underlying connection has already been closed. -/
structure Conn where
  closed : Bool
deriving DecidableEq, Repr

/-- `conn.WriteMessage(websocket.CloseMessage, ...)` on the transport:
fails once the underlying connection is closed.  `WSClient.Close` only
logs this result. -/
def connWriteClose (c : Conn) : Option String :=
  if c.closed then some "write: use of closed network connection" else none

/-- `conn.Close()` on the transport: the first close succeeds and marks
the connection closed; closing an already-closed connection returns the
standard `net` error. -/
def connClose (c : Conn) : Option String × Conn :=
  if c.closed then (some "use of closed network connection", c)
  else (none, { closed := true })

/-- The `WSClient` fields the session claims depend on: the connection
handle, `nil` (`none`) until `Connect` succeeds and never reset. -/
structure WSClientSt where
  conn : Option Conn
deriving DecidableEq, Repr

/-- `WSClient.Close` (main.go and the modular websocket file, identical):
return `nil` when the handle is `nil`; otherwise send a close message,
logging (and otherwise ignoring) its error, and return the transport's
`Close` result.  The handle itself is never cleared. -/
def WSClientSt.close (ws : WSClientSt) : Option String × WSClientSt :=
  match ws.conn with
  | none => (none, ws)
  | some c =>
    let _logged := connWriteClose c
    let r := connClose c
    (r.1, { conn := some r.2 })

/-- `WSClient.Connect` on the success path: store the freshly dialled
connection in the handle. -/
def WSClientSt.connect (_ws : WSClientSt) : WSClientSt :=
  { conn := some { closed := false } }

/-- The distinguishable error values flowing out of `ReadMessages`:
`ctx.Err()` of a cancelled context, the not-connected guard error, the
wrapped unexpected-close error, and any other read error returned as-is. -/
inductive GoErr where
  | contextCanceled
  | notConnected
  | unexpectedClose (msg : String)
  | readOther (msg : String)
deriving DecidableEq, Repr

/-- One observation of the `ReadMessages` loop, in order: the `select`
sees the cancelled context, or `conn.ReadMessage` fails (unexpected close
code or not), or it yields a close frame, or it yields a data frame. -/
inductive ReadEvent where
  | ctxDone
  | readFail (unexpected : Bool) (msg : String)
  | closeFrame
  | dataFrame (frame : List Nat)
deriving DecidableEq, Repr

/-- The `ReadMessages` loop over a trace of observations.  The first
component is `none` while the trace runs out with the loop still going,
or `some r` when the loop returns, where `r` is the returned error
(`none` for the `nil` return on a close frame).  The second component
collects the data frames handed to `processMessage`, whose errors are
logged and absorbed by `continue`. -/
def readMessagesRun : List ReadEvent → Option (Option GoErr) × List (List Nat)
  | [] => (none, [])
  | ReadEvent.ctxDone :: _ => (some (some GoErr.contextCanceled), [])
  | ReadEvent.readFail true m :: _ => (some (some (GoErr.unexpectedClose m)), [])
  | ReadEvent.readFail false m :: _ => (some (some (GoErr.readOther m)), [])
  | ReadEvent.closeFrame :: _ => (some none, [])
  | ReadEvent.dataFrame f :: rest =>
    let r := readMessagesRun rest
    (r.1, f :: r.2)

/-- `WSClient.ReadMessages`: the `nil`-handle guard returns the
not-connected error before any read; otherwise the loop runs over the
observation trace. -/
def ReadMessages (ws : WSClientSt) (events : List ReadEvent) :
    Option (Option GoErr) × List (List Nat) :=
  match ws.conn with
  | none => (some (some GoErr.notConnected), [])
  | some _ => readMessagesRun events

/-- The result of `Run` (client.go), given whether `Connect` and the
initial `SendMessage` succeeded and the terminal value delivered on the
`readErr` channel: a read error is fatal unless it is exactly
`context.Canceled`, in which case `Run` logs and returns `nil`. -/
def RunResult (connectOk sendOk : Bool) (readTerm : Option GoErr) : Option String :=
  if !connectOk then some "connect error"
  else if !sendOk then some "failed to send initial message"
  else
    match readTerm with
    | some e => if e ≠ GoErr.contextCanceled then some "read error" else none
    | none => none

/-- `GeocodingService.ReverseGeocodeWithRateLimit` (client.go/geocoding),
over the outcome of the external `ReverseGeocode` HTTP call: on failure
it returns the error immediately; on success it sleeps one second and
returns the location.  The second component is the number of seconds
slept after the call. -/
def ReverseGeocodeWithRateLimit (call : Except String NominatimResponse) :
    Except String NominatimResponse × Nat :=
  match call with
  | Except.error e => (Except.error e, 0)
  | Except.ok loc => (Except.ok loc, 1)

/-- Seconds slept after the enrichment call by the modular
`WSClient.processMessage`, which delegates to
`ReverseGeocodeWithRateLimit` and adds no sleep of its own. -/
def processMessageWaitModular (call : Except String NominatimResponse) : Nat :=
  (ReverseGeocodeWithRateLimit call).2

/-- Seconds slept after the enrichment call by the monolithic
`WSClient.processMessage` of main.go: `time.Sleep(1 * time.Second)`
unconditionally, whether or not `reverseGeocode` failed. -/
def processMessageWaitMono (_call : Except String NominatimResponse) : Nat := 1

/-!  ### Decoder lemmas  -/

theorem utf8Encode_ne_nil (c : Nat) : utf8Encode c ≠ [] := by
  unfold utf8Encode
  split_ifs <;> simp

theorem dictLookup_mem {d : List (Nat × List Nat)} {c : Nat} {v : List Nat}
    (h : dictLookup d c = some v) : ∃ p ∈ d, p.2 = v := by
  induction d with
  | nil => simp [dictLookup] at h
  | cons p rest ih =>
    by_cases hp : p.1 = c
    · simp [dictLookup, hp] at h
      exact ⟨p, by simp, h⟩
    · simp [dictLookup, hp] at h
      obtain ⟨q, hq, hqv⟩ := ih h
      exact ⟨q, by simp [hq], hqv⟩

theorem dictLookup_append (d1 d2 : List (Nat × List Nat)) (c : Nat) :
    dictLookup (d1 ++ d2) c =
      match dictLookup d1 c with
      | some v => some v
      | none => dictLookup d2 c := by
  induction d1 with
  | nil => simp [dictLookup]
  | cons p rest ih =>
    by_cases hp : p.1 = c <;> simp [dictLookup, hp, ih]

theorem dictLookup_range_map (f : Nat → List Nat) (n i : Nat) :
    dictLookup ((List.range n).map (fun j => (j, f j))) i =
      if i < n then some (f i) else none := by
  induction n with
  | zero => simp [dictLookup]
  | succ n ih =>
    rw [List.range_succ, List.map_append, dictLookup_append, ih]
    by_cases hlt : i < n
    · simp [hlt, Nat.lt_succ_of_lt hlt]
    · by_cases heq : i = n
      · subst heq
        simp [dictLookup, Nat.lt_irrefl, Nat.lt_succ_self]
      · have : ¬ i < n + 1 := by omega
        simp [dictLookup, hlt, heq, this, Ne.symm heq]

theorem seedDict_map_fst : seedDict.map Prod.fst = List.range 256 := by
  simp [seedDict, List.map_map]
  rfl

theorem seedDict_length : seedDict.length = 256 := by
  simp [seedDict]

theorem seedDict_values_ne_nil : ∀ p ∈ seedDict, p.2 ≠ [] := by
  intro p hp
  simp only [seedDict, List.mem_map, List.mem_range] at hp
  obtain ⟨i, _, rfl⟩ := hp
  exact utf8Encode_ne_nil i

/-- The loop invariant: `prev` is non-empty, every dictionary value is
non-empty, and the dictionary keys are exactly `0, 1, ..., code - 1` in
order. -/
def decodeInv (st : DecState) : Prop :=
  st.prev ≠ [] ∧ (∀ p ∈ st.dict, p.2 ≠ []) ∧ st.dict.map Prod.fst = List.range st.code

theorem decodeInv_init (d0 : Nat) : decodeInv (initState d0) :=
  ⟨utf8Encode_ne_nil d0, seedDict_values_ne_nil, seedDict_map_fst⟩

/-- Under the invariant, one loop iteration never fails, resolves a
non-empty `entry`, appends it to the output, and registers exactly one
new dictionary entry at the next code. -/
theorem decodeStep_ok (st : DecState) (hst : decodeInv st) (c : Nat) :
    ∃ entry, entry ≠ [] ∧
      decodeStep st c =
        Except.ok { dict := st.dict ++ [(st.code, st.prev ++ utf8Encode (entry.headD 0))],
                    code := st.code + 1,
                    result := st.result ++ entry,
                    prev := entry } := by
  obtain ⟨hprev, hvals, -⟩ := hst
  by_cases hc : c < 256
  · refine ⟨utf8Encode c, utf8Encode_ne_nil c, ?_⟩
    simp [decodeStep, hc, List.length_pos.mpr (utf8Encode_ne_nil c)]
  · cases hlook : dictLookup st.dict c with
    | some val =>
      have hval : val ≠ [] := by
        obtain ⟨p, hp, hpv⟩ := dictLookup_mem hlook
        exact hpv ▸ hvals p hp
      refine ⟨val, hval, ?_⟩
      simp [decodeStep, hc, hlook, List.length_pos.mpr hval]
    | none =>
      have hne : st.prev ++ utf8Encode (st.prev.headD 0) ≠ [] := by
        simp [hprev]
      have hlen : ¬ st.prev.length = 0 := by
        simpa [List.length_eq_zero] using hprev
      refine ⟨st.prev ++ utf8Encode (st.prev.headD 0), hne, ?_⟩
      simp [decodeStep, hc, hlook, hlen, List.length_pos.mpr hne]

/-- The invariant is preserved by one iteration. -/
theorem decodeInv_step (st : DecState) (hst : decodeInv st) (c : Nat) :
    ∃ st', decodeStep st c = Except.ok st' ∧ decodeInv st' ∧
      st'.code = st.code + 1 ∧ ∃ q, st'.dict = st.dict ++ [(st.code, q)] := by
  obtain ⟨entry, hne, hstep⟩ := decodeStep_ok st hst c
  obtain ⟨hprev, hvals, hkeys⟩ := hst
  refine ⟨_, hstep, ⟨hne, ?_, ?_⟩, rfl, ⟨_, rfl⟩⟩
  · intro p hp
    rcases List.mem_append.mp hp with h | h
    · exact hvals p h
    · simp only [List.mem_singleton] at h
      subst h
      simp [hprev]
  · simp [hkeys, List.range_succ]

/-- Running the loop from any state satisfying the invariant never fails,
preserves the invariant, advances the code by one per symbol, and only
ever appends to the dictionary. -/
theorem decodeRun_ok (syms : List Nat) : ∀ st : DecState, decodeInv st →
    ∃ st', decodeRun st syms = Except.ok st' ∧ decodeInv st' ∧
      st'.code = st.code + syms.length ∧ ∃ ext, st'.dict = st.dict ++ ext := by
  induction syms with
  | nil =>
    intro st h
    exact ⟨st, rfl, h, by simp, [], by simp⟩
  | cons c rest ih =>
    intro st h
    obtain ⟨st1, hstep, h1, hcode1, q, hdict1⟩ := decodeInv_step st h c
    obtain ⟨st', hrun, hinv, hcode, ext, hdict⟩ := ih st1 h1
    refine ⟨st', ?_, hinv, ?_, ?_⟩
    · simp [decodeRun, hstep, hrun]
    · rw [hcode, hcode1, List.length_cons]
      omega
    · exact ⟨[(st.code, q)] ++ ext, by rw [hdict, hdict1, List.append_assoc]⟩

theorem decodeRun_append (l1 l2 : List Nat) : ∀ st : DecState,
    decodeRun st (l1 ++ l2) =
      match decodeRun st l1 with
      | Except.error e => Except.error e
      | Except.ok st1 => decodeRun st1 l2 := by
  induction l1 with
  | nil => intro st; simp [decodeRun]
  | cons c rest ih =>
    intro st
    simp only [List.cons_append, decodeRun]
    cases decodeStep st c with
    | error e => rfl
    | ok st1 => exact ih st1

/-!  ### Location-label lemmas  -/

theorem addRoad_eq (parts : List String) (a : NominatimAddress) :
    addRoad parts a = parts ++ optPart a.Road := by
  by_cases h : a.Road = "" <;> simp [addRoad, optPart, h]

theorem addSettlement_eq (parts : List String) (a : NominatimAddress) :
    addSettlement parts a =
      parts ++ optPart (firstNonEmpty [a.Village, a.Town, a.City, a.Suburb]) := by
  by_cases hv : a.Village = "" <;> by_cases ht : a.Town = "" <;>
    by_cases hc : a.City = "" <;> by_cases hs : a.Suburb = "" <;>
    simp [addSettlement, optPart, firstNonEmpty, hv, ht, hc, hs]

theorem addCounty_eq (parts : List String) (a : NominatimAddress) :
    addCounty parts a = parts ++ optPart a.County := by
  by_cases h : a.County = "" <;> simp [addCounty, optPart, h]

theorem addAdmin_eq (parts : List String) (a : NominatimAddress) :
    addAdmin parts a =
      parts ++ optPart (firstNonEmpty [a.State, a.Province, a.Region]) := by
  by_cases hs : a.State = "" <;> by_cases hp : a.Province = "" <;>
    by_cases hr : a.Region = "" <;>
    simp [addAdmin, optPart, firstNonEmpty, hs, hp, hr]

theorem addCountry_eq (parts : List String) (a : NominatimAddress) :
    addCountry parts a = parts ++ optPart a.Country := by
  by_cases h : a.Country = "" <;> simp [addCountry, optPart, h]

theorem formatParts_eq (a : NominatimAddress) :
    formatParts a = optPart a.Road
      ++ optPart (firstNonEmpty [a.Village, a.Town, a.City, a.Suburb])
      ++ optPart a.County
      ++ optPart (firstNonEmpty [a.State, a.Province, a.Region])
      ++ optPart a.Country := by
  simp [formatParts, addRoad_eq, addSettlement_eq, addCounty_eq, addAdmin_eq,
    addCountry_eq, List.append_assoc]

/-!  ### Claim theorems  -/

/-- Claim C1, counterexample: decoding the symbol sequence `[65, 66, 256]`
does not yield `"ABBB"`.  Code 256 is registered (as `"AB"`) while the
second symbol is processed, before symbol 256 is read, so the dictionary
hit — not the self-reference fallback — resolves it, and the output is
`"ABAB"` = `[65, 66, 65, 66]`. -/
theorem claim1_counterexample :
    Decode [65, 66, 256] = Except.ok [65, 66, 65, 66] ∧
      ([65, 66, 65, 66] : List Nat) ≠ [65, 66, 66, 66] :=
  ⟨rfl, by decide⟩

/-- Claim C1, amended: decoding `[65, 66, 256]` yields `"A"`, `"B"`, then
the dictionary entry `"AB"` registered while processing the second
symbol, so `Decode` returns `"ABAB"`; the self-reference fallback needs
the not-yet-assigned code 257, and `[65, 66, 257]` decodes to `"A"`,
`"B"`, then fallback `"B" + "B" = "BB"`, giving `"ABBB"`. -/
theorem claim1_amended :
    Decode [65, 66, 256] = Except.ok [65, 66, 65, 66] ∧
      Decode [65, 66, 257] = Except.ok [65, 66, 66, 66] :=
  ⟨rfl, rfl⟩

/-- Claim C2, counterexample: for the subsequent symbol 200 (< 256) the
decoder appends `string(rune(200))`, the two UTF-8 bytes `[195, 136]`,
not the one-byte sequence `[200]`: `Decode [65, 200]` is
`[65, 195, 136]`. -/
theorem claim2_counterexample :
    Decode [65, 200] = Except.ok [65, 195, 136] ∧
      ([195, 136] : List Nat) ≠ [200] :=
  ⟨rfl, by decide⟩

/-- Claim C2, amended: for every subsequent symbol with code `c < 256`
the loop iteration succeeds and appends the UTF-8 encoding of `c` to the
output payload — the one-byte sequence `[c]` when `c < 128`, and a
two-byte sequence when `128 ≤ c < 256`. -/
theorem claim2_amended (st : DecState) (c : Nat) (hc : c < 256) :
    ∃ st', decodeStep st c = Except.ok st' ∧
      st'.result = st.result ++ utf8Encode c ∧
      (c < 128 → utf8Encode c = [c]) ∧
      (128 ≤ c → (utf8Encode c).length = 2) := by
  refine ⟨{ dict := st.dict ++ [(st.code, st.prev ++ utf8Encode ((utf8Encode c).headD 0))],
            code := st.code + 1, result := st.result ++ utf8Encode c,
            prev := utf8Encode c }, ?_, rfl, ?_, ?_⟩
  · simp [decodeStep, hc, List.length_pos.mpr (utf8Encode_ne_nil c)]
  · intro h
    simp [utf8Encode, h]
  · intro h
    have h1 : ¬ c < 128 := by omega
    have h2 : c < 2048 := by omega
    simp [utf8Encode, h1, h2]

/-- Claim C2, witness: the amended statement evaluated at the state after
first symbol 65 and subsequent symbol 200. -/
theorem claim2_witness :
    ∃ st', decodeStep (initState 65) 200 = Except.ok st' ∧
      st'.result = (initState 65).result ++ utf8Encode 200 ∧
      (200 < 128 → utf8Encode 200 = [200]) ∧
      (128 ≤ 200 → (utf8Encode 200).length = 2) :=
  claim2_amended (initState 65) 200 (by decide)

/-- Claim C3: for a single-symbol input `[s]` with `s` a byte code, the
decoder returns the singleton `[s]` with no error, the loop body never
runs, and the dictionary is left exactly the 256-entry seed. -/
theorem claim3_single (s : Nat) (hs : s < 256) :
    Decode [s] = Except.ok [s] ∧
      decodeRun (initState s) [] = Except.ok (initState s) ∧
      (initState s).dict = seedDict ∧
      seedDict.length = 256 := by
  refine ⟨?_, rfl, rfl, seedDict_length⟩
  simp [Decode, decodeRun, initState, Except.map, Nat.mod_eq_of_lt hs]

/-- Claim C3, witness: the single-symbol statement at `s = 65`. -/
theorem claim3_witness :
    Decode [65] = Except.ok [65] ∧
      decodeRun (initState 65) [] = Except.ok (initState 65) ∧
      (initState 65).dict = seedDict ∧
      seedDict.length = 256 :=
  claim3_single 65 (by decide)

/-- Claim C4, counterexample: the seeded dictionary is not made of 256
singleton entries: the seed for code 200, `string(rune(200))`, is the
two-byte sequence `[195, 136]`. -/
theorem claim4_counterexample :
    (initState 0).dict = seedDict ∧
      dictLookup seedDict 200 = some [195, 136] ∧
      ([195, 136] : List Nat).length ≠ 1 :=
  ⟨rfl, by rfl, by decide⟩

/-- Claim C4, amended: the dictionary is seeded with exactly 256 entries
— code `i` mapping to the UTF-8 encoding of `i`, a singleton only for
`i < 128` — and for every input of `n ≥ 1` symbols the run succeeds and
ends with exactly `256 + (n − 1)` entries at the consecutive codes
`0, ..., 256 + (n − 1) − 1`; growth is append-only: the dictionary after
any prefix of the symbols is a prefix of the final dictionary, so no
entry once assigned is modified or removed. -/
theorem claim4_amended :
    seedDict.length = 256 ∧
    (∀ i, dictLookup seedDict i = if i < 256 then some (utf8Encode i) else none) ∧
    (∀ d0, (initState d0).dict = seedDict) ∧
    (∀ d0 rest, ∃ st, decodeRun (initState d0) rest = Except.ok st ∧
        st.dict.length = 256 + rest.length ∧
        st.dict.map Prod.fst = List.range (256 + rest.length)) ∧
    (∀ d0 rest1 rest2, ∃ st1 st2 ext,
        decodeRun (initState d0) rest1 = Except.ok st1 ∧
        decodeRun (initState d0) (rest1 ++ rest2) = Except.ok st2 ∧
        st2.dict = st1.dict ++ ext) := by
  refine ⟨seedDict_length, fun i => dictLookup_range_map utf8Encode 256 i,
    fun _ => rfl, ?_, ?_⟩
  · intro d0 rest
    obtain ⟨st, hrun, hinv, hcode, -⟩ :=
      decodeRun_ok rest (initState d0) (decodeInv_init d0)
    have hc : st.code = 256 + rest.length := by
      simpa [initState] using hcode
    have hkeys := hinv.2.2
    refine ⟨st, hrun, ?_, by rw [hkeys, hc]⟩
    have hlen := congrArg List.length hkeys
    simpa [hc] using hlen
  · intro d0 rest1 rest2
    obtain ⟨st1, hrun1, hinv1, -, -⟩ :=
      decodeRun_ok rest1 (initState d0) (decodeInv_init d0)
    obtain ⟨st2, hrun2, -, -, ext, hdict⟩ := decodeRun_ok rest2 st1 hinv1
    refine ⟨st1, st2, ext, hrun1, ?_, hdict⟩
    rw [decodeRun_append, hrun1]
    exact hrun2

/-- Claim C5, counterexample: after a successful `Connect`, the first
`Close` succeeds, but — because the handle is never cleared — a second
`Close` closes the transport again and returns its double-close error,
so `Close` is not error-free from every state. -/
theorem claim5_counterexample :
    (WSClientSt.connect { conn := none }).close.1 = none ∧
      ((WSClientSt.connect { conn := none }).close.2.close).1
        = some "use of closed network connection" :=
  ⟨rfl, rfl⟩

/-- Claim C5, amended: `Close` before `Connect` (handle `nil`) returns no
error and changes nothing; after a successful `Connect` the first `Close`
returns no error, but the handle is never cleared, so a second `Close`
re-closes the transport and returns its double-close error. -/
theorem claim5_amended (ws : WSClientSt) :
    (ws.conn = none → ws.close = (none, ws)) ∧
    (∀ c, ws.conn = some c → c.closed = false →
      ws.close.1 = none ∧
        (ws.close.2.close).1 = some "use of closed network connection") := by
  constructor
  · intro h
    simp [WSClientSt.close, h]
  · intro c hc hcl
    simp [WSClientSt.close, hc, connClose, connWriteClose, hcl]

/-- Claim C5, witness: the amended statement at the never-connected
client and at a freshly connected client. -/
theorem claim5_witness :
    (({ conn := none } : WSClientSt).close = (none, { conn := none })) ∧
    (({ conn := some { closed := false } } : WSClientSt).close.1 = none ∧
      (({ conn := some { closed := false } } : WSClientSt).close.2.close).1
        = some "use of closed network connection") :=
  ⟨(claim5_amended { conn := none }).1 rfl,
    (claim5_amended { conn := some { closed := false } }).2
      { closed := false } rfl rfl⟩

/-- Claim C6: the rate-limit wrapper sleeps only after a successful call;
on a failed call (here an HTTP 500) it returns immediately with zero
wait, as does the modular `processMessage` that delegates to it, while
the monolithic `processMessage` of main.go sleeps one second
unconditionally as the claim describes. -/
theorem claim6_rate_limit :
    (ReverseGeocodeWithRateLimit (Except.error "HTTP error: 500")).2 = 0 ∧
      processMessageWaitModular (Except.error "HTTP error: 500") = 0 ∧
      processMessageWaitMono (Except.error "HTTP error: 500") = 1 ∧
      (∀ loc : NominatimResponse,
        (ReverseGeocodeWithRateLimit (Except.ok loc)).2 = 1) :=
  ⟨rfl, rfl, rfl, fun _ => rfl⟩

/-- Claim C7: when the read loop terminates solely because cancellation
was observed — any number of data frames followed by the cancelled
context, no transport error — `ReadMessages` returns `context.Canceled`,
and `Run`'s read-result handling maps exactly that error to success. -/
theorem claim7_cancel_success (frames : List (List Nat)) :
    ReadMessages { conn := some { closed := false } }
        (frames.map ReadEvent.dataFrame ++ [ReadEvent.ctxDone])
      = (some (some GoErr.contextCanceled), frames) ∧
    RunResult true true (some GoErr.contextCanceled) = none := by
  constructor
  · show readMessagesRun (frames.map ReadEvent.dataFrame ++ [ReadEvent.ctxDone]) = _
    induction frames with
    | nil => rfl
    | cons f rest ih => simp [readMessagesRun, ih]
  · rfl

/-- Claim C8, counterexample: on an address with both a county and a
state the code emits both (`"Granville County, North Carolina"`, as in
the README sample), while the claim's admin-level group selects only the
first non-empty of county/state/province/region (`"Granville County"`). -/
theorem claim8_counterexample :
    FormatLocation (some respCountyState) = "Granville County, North Carolina" ∧
      formatLocationClaim (some respCountyState) = "Granville County" ∧
      ("Granville County, North Carolina" : String) ≠ "Granville County" :=
  ⟨rfl, rfl, by decide⟩

/-- Claim C8, amended: the label selects, in order, the road when
present, the first non-empty of village/town/city/suburb, the county
when present, the first non-empty of state/province/region, and the
country when present — county and a state-level field both appear when
both are present — joined with `", "`, and is the sentinel
`"Location unknown"` when the lookup errored (`nil` response) or no
field was usable. -/
theorem claim8_amended (location : Option NominatimResponse) :
    FormatLocation location = formatLocationRef location := by
  cases location with
  | none => rfl
  | some loc =>
    simp only [FormatLocation, formatLocationRef, formatParts_eq,
      List.length_eq_zero, List.append_assoc]

/-- Claim C9: the decoder never returns an error: `prev` starts non-empty
and every resolved entry is non-empty, so the empty-previous error branch
is unreachable and `Decode` always returns a payload. -/
theorem claim9_total (data : List Nat) : ∃ out, Decode data = Except.ok out := by
  cases data with
  | nil => exact ⟨[], rfl⟩
  | cons d0 rest =>
    obtain ⟨st, hrun, -, -, -⟩ := decodeRun_ok rest (initState d0) (decodeInv_init d0)
    exact ⟨st.result, by simp [Decode, hrun, Except.map]⟩

/-- Claim C10: invoked with a `nil` connection handle, `ReadMessages`
returns the not-connected error immediately, independently of whatever
the transport would have delivered, and hands no frame to
`processMessage`. -/
theorem claim10_not_connected (events : List ReadEvent) :
    ReadMessages { conn := none } events = (some (some GoErr.notConnected), []) :=
  rfl

end Airscraper
